import Mathlib

/-!
Verification of the query admission & execution pipeline of `fastmcp-mysql`
(`src/fastmcp_mysql/tools/query.py`), shallowly embedded in Lean 4.

Queries are modelled as `List Char` (Python `str`).  The regular expressions
of `QueryValidator` are embedded as executable matchers with the same
match-existence semantics as Python `re` on the Latin-1 range.
-/

/-- Python whitespace (`\s` for `str` patterns, and `str.strip`), restricted to
the Latin-1 range: space, tab, newline, vertical tab, form feed, carriage
return, the four separator controls, NEL and NBSP. -/
def pyIsSpace (c : Char) : Bool :=
  c = ' ' || c = '\t' || c = '\n' || c = '\x0b' || c = '\x0c' || c = '\r' ||
  c = '\x1c' || c = '\x1d' || c = '\x1e' || c = '\x1f' || c = '\x85' || c = '\xa0'

/-- Python `str.strip()`: drop whitespace from both ends. -/
def pyStrip (l : List Char) : List Char :=
  ((l.dropWhile pyIsSpace).reverse.dropWhile pyIsSpace).reverse

/-- Case-insensitive character comparison (`re.IGNORECASE`, ASCII range). -/
def charEqCI (a b : Char) : Bool :=
  a.toLower = b.toLower

/-- Strip a literal keyword, case-insensitively, from the front of the text;
`some rest` on success. -/
def stripKw : List Char → List Char → Option (List Char)
  | [], rest => some rest
  | _ :: _, [] => none
  | k :: ks, c :: cs => if charEqCI k c then stripKw ks cs else none

/-- Does the text start with a whitespace character (one step of `\s+`)? -/
def headIsWs : List Char → Bool
  | [] => false
  | c :: _ => pyIsSpace c

/-- Match-existence of `re.match(r'^\s*KW\s+', l, re.IGNORECASE)` for a
keyword `kw`: optional leading whitespace, the keyword, then at least one
whitespace character. -/
def matchKwWs (kw : List Char) (l : List Char) : Bool :=
  match stripKw kw (l.dropWhile pyIsSpace) with
  | some rest => headIsWs rest
  | none => false

/-- No newline in the text (`.` does not match `'\n'` without `re.DOTALL`). -/
def noNl (l : List Char) : Bool :=
  !(l.any (fun c => c = '\n'))

/-- Can the region between `WITH` and `SELECT` be split as `\s+` ++ `.*?` ++
`\s+`, i.e. a nonempty whitespace run, then newline-free text, then a
nonempty whitespace run?  Decided by maximal-munch: take the maximal
whitespace prefix and suffix and check the middle for newlines. -/
def regionOk (R : List Char) : Bool :=
  if R.all pyIsSpace then
    decide (2 ≤ R.length)
  else
    (!(R.takeWhile pyIsSpace).isEmpty) &&
    (!((R.dropWhile pyIsSpace).rtakeWhile pyIsSpace).isEmpty) &&
    noNl ((R.dropWhile pyIsSpace).rdropWhile pyIsSpace)

/-- The SQL keywords appearing in the classifier's patterns. -/
def SELkw : List Char := ['S', 'E', 'L', 'E', 'C', 'T']

def INSkw : List Char := ['I', 'N', 'S', 'E', 'R', 'T']

def UPDkw : List Char := ['U', 'P', 'D', 'A', 'T', 'E']

def DELkw : List Char := ['D', 'E', 'L', 'E', 'T', 'E']

def CREkw : List Char := ['C', 'R', 'E', 'A', 'T', 'E']

def DROPkw : List Char := ['D', 'R', 'O', 'P']

def ALTkw : List Char := ['A', 'L', 'T', 'E', 'R']

def TRUNCkw : List Char := ['T', 'R', 'U', 'N', 'C', 'A', 'T', 'E']

def RENkw : List Char := ['R', 'E', 'N', 'A', 'M', 'E']

def WITHkw : List Char := ['W', 'I', 'T', 'H']

/-- `SELECT\s+` at the head of the text (the suffix of the SELECT pattern). -/
def selHeadWs (rest : List Char) : Bool :=
  match stripKw SELkw rest with
  | some r => headIsWs r
  | none => false

/-- Match-existence of the optional-group branch of
`re.match(r'^\s*(WITH\s+.*?\s+)?SELECT\s+', l, re.IGNORECASE)`:
leading whitespace, `WITH`, then a region splitting as `\s+.*?\s+`,
then `SELECT\s+`. -/
def matchWithSelect (l : List Char) : Bool :=
  match stripKw WITHkw (l.dropWhile pyIsSpace) with
  | none => false
  | some T =>
    (List.range (T.length + 1)).any (fun i => regionOk (T.take i) && selHeadWs (T.drop i))

/-- Match-existence of the full SELECT pattern
`^\s*(WITH\s+.*?\s+)?SELECT\s+` (group absent, or group present). -/
def matchSelectPat (l : List Char) : Bool :=
  matchKwWs SELkw l || matchWithSelect l

/-- `QueryType` from `query.py`. -/
inductive QueryType where
  | SELECT
  | INSERT
  | UPDATE
  | DELETE
  | DDL
  | OTHER
  deriving DecidableEq, Repr

/-- `QueryType.value` (the string payload of the Python enum). -/
def QueryType.value : QueryType → List Char
  | .SELECT => SELkw
  | .INSERT => INSkw
  | .UPDATE => UPDkw
  | .DELETE => DELkw
  | .DDL => ['D', 'D', 'L']
  | .OTHER => ['O', 'T', 'H', 'E', 'R']

/-- Match-existence of the DDL pattern
`^\s*(CREATE|DROP|ALTER|TRUNCATE|RENAME)\s+`. -/
def matchDdlPat (s : List Char) : Bool :=
  matchKwWs CREkw s || matchKwWs DROPkw s || matchKwWs ALTkw s ||
  matchKwWs TRUNCkw s || matchKwWs RENkw s

/-- `QueryValidator.get_query_type`: strip the query, then try the patterns in
the dictionary's insertion order (SELECT, INSERT, UPDATE, DELETE, DDL);
fall back to OTHER. -/
def get_query_type (q : List Char) : QueryType :=
  let s := pyStrip q
  if matchSelectPat s then .SELECT
  else if matchKwWs INSkw s then .INSERT
  else if matchKwWs UPDkw s then .UPDATE
  else if matchKwWs DELkw s then .DELETE
  else if matchDdlPat s then .DDL
  else .OTHER

/-- Match-existence of `re.search(r';\s*\S', q)` (the
`multi_statement_pattern`): some `';'` is followed, after possible
whitespace, by a non-whitespace character — equivalently, some `';'` has a
non-whitespace character anywhere after it. -/
def multiStatement : List Char → Bool
  | [] => false
  | c :: rest => (c = ';' && rest.any (fun d => !pyIsSpace d)) || multiStatement rest

/-- The permission flags of `QueryValidator.__init__`. -/
structure Validator where
  allow_insert : Bool
  allow_update : Bool
  allow_delete : Bool
  deriving DecidableEq, Repr

/-- `QueryValidator.validate_query`: raise (= `Except.error` with the message)
on multiple statements, on DDL, and on a write category whose permission is
missing; return `()` otherwise.  `allow_write` is the keyword argument
(default `True`; `QueryExecutor.execute` passes the default). -/
def validate_query (v : Validator) (q : List Char) (allow_write : Bool) :
    Except (List Char) Unit :=
  if multiStatement q then
    .error (String.toList "Multiple statements detected in query")
  else if get_query_type q = .DDL then
    .error (String.toList "DDL operations are not allowed")
  else if get_query_type q = .SELECT ∨ get_query_type q = .OTHER then
    .ok ()
  else if allow_write = false then
    .error ((get_query_type q).value ++ String.toList " operations require write permission")
  else if get_query_type q = .INSERT ∧ v.allow_insert = false then
    .error (String.toList "INSERT operations are not allowed")
  else if get_query_type q = .UPDATE ∧ v.allow_update = false then
    .error (String.toList "UPDATE operations are not allowed")
  else if get_query_type q = .DELETE ∧ v.allow_delete = false then
    .error (String.toList "DELETE operations are not allowed")
  else
    .ok ()

/-- A raw downstream execution result (`ConnectionManager.execute` returns
the fetched rows for SELECT-like statements and the affected-row count for
writes; `Row` is the abstract row type). -/
inductive DbValue (Row : Type) where
  | rows : List Row → DbValue Row
  | count : Nat → DbValue Row
  deriving DecidableEq, Repr

/-- The dictionary returned by `QueryExecutor.execute`.  A key absent from
the Python dict (`error` on the success paths) is `none`. -/
structure Envelope (Row : Type) where
  success : Bool
  error : Option (List Char)
  data : Option (DbValue Row)
  rows_affected : Option (DbValue Row)
  deriving DecidableEq, Repr

/-- `QueryExecutor._add_database_prefix`: documented as a placeholder, it
returns the original query unchanged. -/
def addDatabaseQualifier (query : List Char) (_database : List Char) : List Char :=
  query

/-- `QueryExecutor.execute`.  The downstream collaborator
`ConnectionManager.execute` is the function argument `db` (returning
`Except.error` with the exception text when it raises); `π` is the abstract
type of the bound parameter tuple.  `if database:` is Python truthiness:
`None` and the empty string are falsy. -/
def QueryExecutor.execute {Row π : Type} (v : Validator)
    (db : List Char → Option π → Except (List Char) (DbValue Row))
    (query : List Char) (params : Option π) (database : Option (List Char)) :
    Envelope Row :=
  match validate_query v query true with
  | .error e => ⟨false, some e, none, none⟩
  | .ok _ =>
    let query1 : List Char :=
      match database with
      | some d => if d.isEmpty then query else addDatabaseQualifier query d
      | none => query
    match db query1 params with
    | .error e => ⟨false, some e, none, none⟩
    | .ok result =>
      if get_query_type query1 = .SELECT then ⟨true, none, some result, none⟩
      else ⟨true, none, none, some result⟩

/-- The `metadata` sub-dictionary built by `format_query_result`: the
constructor records the `query_type` tag ("SELECT" vs "WRITE"). -/
inductive MetaInfo (Row : Type) where
  | selectMeta (row_count : Nat)
  | writeMeta (rows_affected : Option (DbValue Row))
  deriving DecidableEq, Repr

/-- The dictionary returned by `format_query_result`.  `data` distinguishes
key-present-with-null (`some none`) from key-absent (`none`); `error` and
`metadata` are absent (`none`) on the branches that do not set them. -/
structure FormattedResult (Row : Type) where
  success : Bool
  message : List Char
  error : Option (List Char)
  data : Option (Option (DbValue Row))
  metadata : Option (MetaInfo Row)
  deriving DecidableEq, Repr

/-- `len(data) if isinstance(data, list) else 0`. -/
def rowCount {Row : Type} : DbValue Row → Nat
  | .rows l => l.length
  | .count _ => 0

/-- `format_query_result`: shape a raw envelope for output. -/
def format_query_result {Row : Type} (result : Envelope Row) : FormattedResult Row :=
  if result.success then
    match result.data with
    | some d =>
      ⟨true, String.toList "Query executed successfully", none, some (some d),
        some (.selectMeta (rowCount d))⟩
    | none =>
      ⟨true, String.toList "Query executed successfully", none, some none,
        some (.writeMeta result.rows_affected)⟩
  else
    ⟨false, String.toList "Query execution failed", result.error, none, none⟩

/-- A character usable in the `<name>` of the spec's `WITH <name> AS (...)`
gloss: not whitespace and not a parenthesis. -/
def specNameChar (c : Char) : Bool :=
  !pyIsSpace c && !(c = '(') && !(c = ')')

/-- Spec-side: after the closing text of the CTE body, a `')'` followed by
whitespace and then `SELECT` + whitespace. -/
def specCloseParen (T5 : List Char) : Bool :=
  (List.range (T5.length + 1)).any (fun i =>
    match T5.drop i with
    | ')' :: T6 => headIsWs T6 && selHeadWs (T6.dropWhile pyIsSpace)
    | _ => false)

/-- Spec-side: after `AS`, whitespace, `'('`, a body, then `specCloseParen`. -/
def specAfterAs (T3 : List Char) : Bool :=
  headIsWs T3 &&
  (match T3.dropWhile pyIsSpace with
   | '(' :: T5 => specCloseParen T5
   | _ => false)

/-- Spec-side: after `WITH`, whitespace, a nonempty `<name>`, whitespace,
`AS`, then `specAfterAs`. -/
def specAfterWith (T : List Char) : Bool :=
  headIsWs T &&
  (let T1 := T.dropWhile pyIsSpace
   let nm := T1.takeWhile specNameChar
   (!nm.isEmpty) && headIsWs (T1.drop nm.length) &&
   (match stripKw ['A', 'S'] ((T1.drop nm.length).dropWhile pyIsSpace) with
    | some T3 => specAfterAs T3
    | none => false))

/-- The SELECT-yielding pattern exactly as the claim words it: an optional
leading `WITH <name> AS (...)` clause followed by SELECT.  This is the
claim-side definition, to be compared with the source's `matchWithSelect`. -/
def specWithClause (l : List Char) : Bool :=
  match stripKw WITHkw (l.dropWhile pyIsSpace) with
  | some T => specAfterWith T
  | none => false

/-- The classifier exactly as the claim describes it: like `get_query_type`
but with the claim's `WITH <name> AS (...)` reading of the optional clause
before SELECT. -/
def specClassify (q : List Char) : QueryType :=
  let s := pyStrip q
  if matchKwWs SELkw s || specWithClause s then .SELECT
  else if matchKwWs INSkw s then .INSERT
  else if matchKwWs UPDkw s then .UPDATE
  else if matchKwWs DELkw s then .DELETE
  else if matchDdlPat s then .DDL
  else .OTHER

/-- Case-insensitive equality of two texts (`re.IGNORECASE`, ASCII). -/
def lowerEq (k kw : List Char) : Prop :=
  k.map Char.toLower = kw.map Char.toLower

/-- All characters are whitespace (propositional form). -/
def allWsP (l : List Char) : Prop :=
  ∀ x ∈ l, pyIsSpace x = true

/-- Declarative reading of the keyword pattern `^\s*KW\s+`: the text splits
into optional whitespace, the keyword (case-insensitively), and one
whitespace character. -/
def kwSpec (kw s : List Char) : Prop :=
  ∃ w k c r, s = w ++ k ++ c :: r ∧ allWsP w ∧ lowerEq k kw ∧ pyIsSpace c = true

/-- Declarative reading of the amended WITH-SELECT pattern
`^\s*WITH\s+.*?\s+SELECT\s+`: optional whitespace, `WITH`, a nonempty
whitespace run, newline-free text, a nonempty whitespace run, `SELECT`, one
whitespace character. -/
def withSelSpec (s : List Char) : Prop :=
  ∃ w0 kw w1 X w2 ks c r,
    s = w0 ++ kw ++ w1 ++ X ++ w2 ++ ks ++ c :: r ∧
    allWsP w0 ∧ lowerEq kw WITHkw ∧
    w1 ≠ [] ∧ allWsP w1 ∧ (∀ x ∈ X, ¬ x = '\n') ∧ w2 ≠ [] ∧ allWsP w2 ∧
    lowerEq ks SELkw ∧ pyIsSpace c = true

/-- Declarative SELECT pattern: bare SELECT, or the (amended) WITH clause
followed by SELECT. -/
def selSpec (s : List Char) : Prop :=
  kwSpec SELkw s ∨ withSelSpec s

/-- Declarative DDL pattern: any of the five DDL keywords. -/
def ddlSpec (s : List Char) : Prop :=
  kwSpec CREkw s ∨ kwSpec DROPkw s ∨ kwSpec ALTkw s ∨ kwSpec TRUNCkw s ∨ kwSpec RENkw s

/-- Modelled from the spec: the sliding-window rate limiter of §4.4 of the
spec.  Its implementation is missing from `src/` — only the abstract
interface `security/interfaces/rate_limiter.py` and test scaffolding (whose
local `RateLimiter.check_rate_limit` is a stub returning `(True, "OK")`)
are present.  Configuration: per-minute and per-hour maxima and the
cooldown duration. -/
structure LimiterConfig where
  max_per_minute : Nat
  max_per_hour : Nat
  cooldown_seconds : Nat
  deriving Repr

/-- Modelled from the spec: per-identity limiter state — minute-window and
hour-window request timestamps and the optional cooldown expiry, all keyed
by the identity string. -/
structure LimiterState where
  minute : String → List Nat
  hour : String → List Nat
  cooldown : String → Option Nat

/-- The initial limiter state: no identity has any recorded request. -/
def LimiterState.empty : LimiterState :=
  ⟨fun _ => [], fun _ => [], fun _ => none⟩

/-- Point update of a keyed map. -/
def updF {α : Type} (f : String → α) (k : String) (a : α) : String → α :=
  fun j => if j = k then a else f j

/-- Is a timestamp within the trailing window of the given horizon ending at
`now`? -/
def inWindow (horizon now ts : Nat) : Bool :=
  decide (now < ts + horizon)

/-- Modelled from the spec: the window part of `checkAndRecord` — purge
entries older than the horizon lazily, deny when a window is at its
configured maximum (entering cooldown), and record the timestamp into both
windows on allow. -/
def windowStep (cfg : LimiterConfig) (s : LimiterState) (ident : String) (now : Nat) :
    (Bool × Option Nat) × LimiterState :=
  let m := (s.minute ident).filter (inWindow 60 now)
  let h := (s.hour ident).filter (inWindow 3600 now)
  if cfg.max_per_minute ≤ m.length then
    ((false, some cfg.cooldown_seconds),
      ⟨updF s.minute ident m, updF s.hour ident h,
        updF s.cooldown ident (some (now + cfg.cooldown_seconds))⟩)
  else if cfg.max_per_hour ≤ h.length then
    ((false, some cfg.cooldown_seconds),
      ⟨updF s.minute ident m, updF s.hour ident h,
        updF s.cooldown ident (some (now + cfg.cooldown_seconds))⟩)
  else
    ((true, none),
      ⟨updF s.minute ident (now :: m), updF s.hour ident (now :: h), s.cooldown⟩)

/-- Modelled from the spec: `checkAndRecord(identity)` — cooldown first
(deny with the remaining seconds while `now` is before the expiry), then
the minute and hour sliding windows. -/
def checkAndRecord (cfg : LimiterConfig) (s : LimiterState) (ident : String) (now : Nat) :
    (Bool × Option Nat) × LimiterState :=
  match s.cooldown ident with
  | some expiry =>
    if now < expiry then ((false, some (expiry - now)), s)
    else windowStep cfg ⟨s.minute, s.hour, updF s.cooldown ident none⟩ ident now
  | none => windowStep cfg s ident now

/-- Run `k` consecutive `checkAndRecord` calls for one identity at time
`now`, keeping only the state. -/
def runChecks (cfg : LimiterConfig) (ident : String) (now : Nat) :
    Nat → LimiterState → LimiterState
  | 0, s => s
  | k + 1, s => (checkAndRecord cfg (runChecks cfg ident now k s) ident now).2

/-- The limiter state after `k` allowed requests from identity `a` at time
`t`, starting empty. -/
def stateAfter (a : String) (t k : Nat) : LimiterState :=
  ⟨updF (fun _ => []) a (List.replicate k t),
   updF (fun _ => []) a (List.replicate k t),
   fun _ => none⟩

/-- A downstream collaborator that always raises, with exception text `m`
(rows and parameters instantiated at `Unit`). -/
def dbRaise (m : List Char) : List Char → Option Unit → Except (List Char) (DbValue Unit) :=
  fun _ _ => Except.error m

/-- A downstream collaborator that always succeeds with one (unit) row. -/
def dbRows : List Char → Option Unit → Except (List Char) (DbValue Unit) :=
  fun _ _ => Except.ok (DbValue.rows [()])

/-! ## Basic lemmas about the executor -/

theorem execute_validate_error {Row π : Type} (v : Validator)
    (db : List Char → Option π → Except (List Char) (DbValue Row))
    (q : List Char) (p : Option π) (dd : Option (List Char)) (e : List Char)
    (h : validate_query v q true = .error e) :
    QueryExecutor.execute v db q p dd = ⟨false, some e, none, none⟩ := by
  unfold QueryExecutor.execute
  rw [h]

theorem execute_validate_ok {Row π : Type} (v : Validator)
    (db : List Char → Option π → Except (List Char) (DbValue Row))
    (q : List Char) (p : Option π) (dd : Option (List Char))
    (h : validate_query v q true = .ok ()) :
    QueryExecutor.execute v db q p dd =
      (match db q p with
       | .error e => ⟨false, some e, none, none⟩
       | .ok r =>
         if get_query_type q = .SELECT then ⟨true, none, some r, none⟩
         else ⟨true, none, none, some r⟩) := by
  unfold QueryExecutor.execute
  rw [h]
  cases dd with
  | none => rfl
  | some d => simp only [addDatabaseQualifier, ite_self]

theorem execute_shape {Row π : Type} (v : Validator)
    (db : List Char → Option π → Except (List Char) (DbValue Row))
    (q : List Char) (p : Option π) (dd : Option (List Char)) :
    (∃ e, QueryExecutor.execute v db q p dd = ⟨false, some e, none, none⟩) ∨
    (∃ r, QueryExecutor.execute v db q p dd = ⟨true, none, some r, none⟩) ∨
    (∃ r, QueryExecutor.execute v db q p dd = ⟨true, none, none, some r⟩) := by
  cases hv : validate_query v q true with
  | error e => exact Or.inl ⟨e, execute_validate_error v db q p dd e hv⟩
  | ok u =>
    cases u
    rw [execute_validate_ok v db q p dd hv]
    cases hdb : db q p with
    | error e => exact Or.inl ⟨e, rfl⟩
    | ok r =>
      by_cases hq : get_query_type q = QueryType.SELECT
      · exact Or.inr (Or.inl ⟨r, by simp [hq]⟩)
      · exact Or.inr (Or.inr ⟨r, by simp [hq]⟩)

/-! ## C10: the database qualifier is the identity -/

/-- C10: `_add_database_prefix` returns its query argument unchanged, so
`QueryExecutor.execute` gives the same result whether the `database`
argument is supplied or omitted. -/
theorem C10_database_argument_irrelevant :
    (∀ (q d : List Char), addDatabaseQualifier q d = q) ∧
    (∀ (Row π : Type) (v : Validator)
       (db : List Char → Option π → Except (List Char) (DbValue Row))
       (q : List Char) (p : Option π) (d : List Char),
      QueryExecutor.execute v db q p (some d) = QueryExecutor.execute v db q p none) := by
  refine ⟨fun q d => rfl, ?_⟩
  intro Row π v db q p d
  cases hv : validate_query v q true with
  | error e =>
    rw [execute_validate_error v db q p (some d) e hv,
      execute_validate_error v db q p none e hv]
  | ok u =>
    cases u
    rw [execute_validate_ok v db q p (some d) hv, execute_validate_ok v db q p none hv]

/-! ## C9: a bare keyword with nothing after it classifies as OTHER -/

/-- C9: every classification pattern requires whitespace after the keyword,
so a query that is exactly one keyword is OTHER and `validate_query`
accepts it regardless of all permission flags. -/
theorem C9_bare_keyword_other :
    ∀ v : Validator,
    (get_query_type (String.toList "SELECT") = .OTHER ∧
      validate_query v (String.toList "SELECT") true = .ok ()) ∧
    (get_query_type (String.toList "INSERT") = .OTHER ∧
      validate_query v (String.toList "INSERT") true = .ok ()) ∧
    (get_query_type (String.toList "UPDATE") = .OTHER ∧
      validate_query v (String.toList "UPDATE") true = .ok ()) ∧
    (get_query_type (String.toList "DELETE") = .OTHER ∧
      validate_query v (String.toList "DELETE") true = .ok ()) ∧
    (get_query_type (String.toList "CREATE") = .OTHER ∧
      validate_query v (String.toList "CREATE") true = .ok ()) ∧
    (get_query_type (String.toList "DROP") = .OTHER ∧
      validate_query v (String.toList "DROP") true = .ok ()) ∧
    (get_query_type (String.toList "ALTER") = .OTHER ∧
      validate_query v (String.toList "ALTER") true = .ok ()) ∧
    (get_query_type (String.toList "TRUNCATE") = .OTHER ∧
      validate_query v (String.toList "TRUNCATE") true = .ok ()) ∧
    (get_query_type (String.toList "RENAME") = .OTHER ∧
      validate_query v (String.toList "RENAME") true = .ok ()) := by
  intro v
  exact ⟨⟨by decide, rfl⟩, ⟨by decide, rfl⟩, ⟨by decide, rfl⟩, ⟨by decide, rfl⟩,
    ⟨by decide, rfl⟩, ⟨by decide, rfl⟩, ⟨by decide, rfl⟩, ⟨by decide, rfl⟩,
    ⟨by decide, rfl⟩⟩

/-! ## C1: error text in the envelope -/

/-- C1 counterexample: two runs differing only in the downstream exception's
message give different caller-visible error fields, each equal to the raw
downstream text — refuting the claim that the error is a fixed-vocabulary
message independent of the downstream exception text. -/
theorem C1_counterexample :
    (QueryExecutor.execute ⟨false, false, false⟩ (dbRaise (String.toList "boom-A"))
        (String.toList "SELECT 1") none none).error = some (String.toList "boom-A") ∧
    (QueryExecutor.execute ⟨false, false, false⟩ (dbRaise (String.toList "boom-B"))
        (String.toList "SELECT 1") none none).error = some (String.toList "boom-B") ∧
    ¬((QueryExecutor.execute ⟨false, false, false⟩ (dbRaise (String.toList "boom-A"))
        (String.toList "SELECT 1") none none).error =
      (QueryExecutor.execute ⟨false, false, false⟩ (dbRaise (String.toList "boom-B"))
        (String.toList "SELECT 1") none none).error) := by
  exact ⟨by decide, by decide, by decide⟩

/-- C1 (amended): the envelope's error field is `str(e)` of the raised
exception — the fixed validation message when validation rejects, but the
raw downstream exception text verbatim when downstream execution raises. -/
theorem C1_error_field_amended :
    ∀ (Row π : Type) (v : Validator)
      (db : List Char → Option π → Except (List Char) (DbValue Row))
      (q : List Char) (p : Option π) (dd : Option (List Char)),
    (∀ m, validate_query v q true = .ok () → db q p = .error m →
      (QueryExecutor.execute v db q p dd).error = some m) ∧
    (∀ e, validate_query v q true = .error e →
      (QueryExecutor.execute v db q p dd).error = some e) := by
  intro Row π v db q p dd
  constructor
  · intro m hv hdb
    rw [execute_validate_ok v db q p dd hv, hdb]
  · intro e hv
    rw [execute_validate_error v db q p dd e hv]

/-- C1 amended-claim witness at a concrete input. -/
theorem C1_error_field_amended_witness :
    (QueryExecutor.execute ⟨false, false, false⟩ (dbRaise (String.toList "down"))
      (String.toList "SELECT 1") none none).error = some (String.toList "down") := by
  exact (C1_error_field_amended Unit Unit ⟨false, false, false⟩
      (dbRaise (String.toList "down")) (String.toList "SELECT 1") none none).1
    (String.toList "down") rfl rfl

/-! ## C2: envelope invariants -/

/-- C2: `execute` always returns an envelope; success implies no error
field, and failure implies null data and rows_affected, both at the raw
envelope and at the surface shaped by `format_query_result`. -/
theorem C2_envelope_invariant :
    ∀ (Row π : Type) (v : Validator)
      (db : List Char → Option π → Except (List Char) (DbValue Row))
      (q : List Char) (p : Option π) (dd : Option (List Char)),
    ((QueryExecutor.execute v db q p dd).success = true →
      (QueryExecutor.execute v db q p dd).error = none) ∧
    ((QueryExecutor.execute v db q p dd).success = false →
      (QueryExecutor.execute v db q p dd).data = none ∧
      (QueryExecutor.execute v db q p dd).rows_affected = none) ∧
    ((format_query_result (QueryExecutor.execute v db q p dd)).success = true →
      (format_query_result (QueryExecutor.execute v db q p dd)).error = none) ∧
    ((format_query_result (QueryExecutor.execute v db q p dd)).success = false →
      (format_query_result (QueryExecutor.execute v db q p dd)).data = none ∧
      (format_query_result (QueryExecutor.execute v db q p dd)).metadata = none) := by
  intro Row π v db q p dd
  rcases execute_shape v db q p dd with ⟨e, h⟩ | ⟨r, h⟩ | ⟨r, h⟩ <;>
    rw [h] <;> simp [format_query_result]

/-- C2 witness at a concrete failing input. -/
theorem C2_envelope_invariant_witness :
    (format_query_result (QueryExecutor.execute ⟨false, false, false⟩
        (dbRaise (String.toList "x")) (String.toList "DROP TABLE t") none none)).data =
      none ∧
    (format_query_result (QueryExecutor.execute ⟨false, false, false⟩
        (dbRaise (String.toList "x")) (String.toList "DROP TABLE t") none none)).metadata =
      none := by
  exact (C2_envelope_invariant Unit Unit ⟨false, false, false⟩
      (dbRaise (String.toList "x")) (String.toList "DROP TABLE t") none none).2.2.2
    (by decide)

/-! ## C3: result shaping by category -/

/-- C3 counterexample: a successful OTHER-category query ("SHOW TABLES")
puts the returned value into `rows_affected` and leaves `data` null — the
code branches only on SELECT vs non-SELECT, so OTHER is not grouped with
SELECT as the claim states. -/
theorem C3_counterexample :
    get_query_type (String.toList "SHOW TABLES") = .OTHER ∧
    QueryExecutor.execute ⟨true, true, true⟩ dbRows (String.toList "SHOW TABLES")
        none none =
      ⟨true, none, none, some (DbValue.rows [()])⟩ := by
  exact ⟨by decide, by decide⟩

/-- C3 (amended): on successful execution, a SELECT-category query yields
`data` = returned rows and null `rows_affected`; an INSERT, UPDATE, DELETE
or OTHER query yields `rows_affected` = the returned value and null
`data`. -/
theorem C3_result_shaping_amended :
    ∀ (Row π : Type) (v : Validator)
      (db : List Char → Option π → Except (List Char) (DbValue Row))
      (q : List Char) (p : Option π) (dd : Option (List Char)) (r : DbValue Row),
    validate_query v q true = .ok () → db q p = .ok r →
    ((get_query_type q = .SELECT →
       QueryExecutor.execute v db q p dd = ⟨true, none, some r, none⟩) ∧
     (get_query_type q = .INSERT ∨ get_query_type q = .UPDATE ∨
      get_query_type q = .DELETE ∨ get_query_type q = .OTHER →
       QueryExecutor.execute v db q p dd = ⟨true, none, none, some r⟩)) := by
  intro Row π v db q p dd r hv hdb
  rw [execute_validate_ok v db q p dd hv, hdb]
  constructor
  · intro hq
    simp [hq]
  · intro h
    have hne : ¬ get_query_type q = QueryType.SELECT := by
      rcases h with h | h | h | h <;> simp [h]
    simp [hne]

/-- C3 amended-claim witness: one SELECT run and one OTHER run. -/
theorem C3_result_shaping_amended_witness :
    QueryExecutor.execute ⟨true, true, true⟩ dbRows (String.toList "SELECT 1")
        none none =
      ⟨true, none, some (DbValue.rows [()]), none⟩ ∧
    QueryExecutor.execute ⟨true, true, true⟩ dbRows (String.toList "SHOW TABLES")
        none none =
      ⟨true, none, none, some (DbValue.rows [()])⟩ := by
  constructor
  · exact (C3_result_shaping_amended Unit Unit ⟨true, true, true⟩ dbRows
        (String.toList "SELECT 1") none none (DbValue.rows [()]) rfl rfl).1
      (by decide)
  · exact (C3_result_shaping_amended Unit Unit ⟨true, true, true⟩ dbRows
        (String.toList "SHOW TABLES") none none (DbValue.rows [()]) rfl rfl).2
      (Or.inr (Or.inr (Or.inr (by decide))))

/-! ## C5: DDL is rejected unconditionally, before execution -/

/-- C5: a single-statement DDL query is rejected with `success = false`
for every permission configuration, and the downstream collaborator is
never consulted (the result is independent of it). -/
theorem C5_ddl_rejected :
    ∀ (Row π : Type) (v : Validator)
      (db1 db2 : List Char → Option π → Except (List Char) (DbValue Row))
      (q : List Char) (p : Option π) (dd : Option (List Char)),
    get_query_type q = .DDL → multiStatement q = false →
    (QueryExecutor.execute v db1 q p dd).success = false ∧
    (QueryExecutor.execute v db1 q p dd).error =
      some (String.toList "DDL operations are not allowed") ∧
    QueryExecutor.execute v db1 q p dd = QueryExecutor.execute v db2 q p dd := by
  intro Row π v db1 db2 q p dd hq hms
  have hv : validate_query v q true =
      .error (String.toList "DDL operations are not allowed") := by
    simp [validate_query, hms, hq]
  rw [execute_validate_error v db1 q p dd _ hv, execute_validate_error v db2 q p dd _ hv]
  exact ⟨rfl, rfl, rfl⟩

/-- C5 witness: `DROP TABLE users` with all write flags enabled, against
two different downstream collaborators. -/
theorem C5_ddl_rejected_witness :
    (QueryExecutor.execute ⟨true, true, true⟩ (dbRaise (String.toList "x"))
        (String.toList "DROP TABLE users") none none).success = false ∧
    (QueryExecutor.execute ⟨true, true, true⟩ (dbRaise (String.toList "x"))
        (String.toList "DROP TABLE users") none none).error =
      some (String.toList "DDL operations are not allowed") ∧
    QueryExecutor.execute ⟨true, true, true⟩ (dbRaise (String.toList "x"))
        (String.toList "DROP TABLE users") none none =
      QueryExecutor.execute ⟨true, true, true⟩ dbRows
        (String.toList "DROP TABLE users") none none := by
  exact C5_ddl_rejected Unit Unit ⟨true, true, true⟩ (dbRaise (String.toList "x"))
    dbRows (String.toList "DROP TABLE users") none none (by decide) (by decide)

/-! ## C4: multiple-statement detection -/

theorem multiStatement_append_true (a l : List Char) (h : multiStatement l = true) :
    multiStatement (a ++ l) = true := by
  induction a with
  | nil => simpa using h
  | cons c t ih => simp [multiStatement, ih]

theorem allws_any_nonws (l : List Char) (h : ∀ x ∈ l, pyIsSpace x = true) :
    l.any (fun d => !pyIsSpace d) = false := by
  rw [List.any_eq_false]
  intro x hx
  simp [h x hx]

theorem multiStatement_semi (w b : List Char) (c : Char) (hc : pyIsSpace c = false) :
    multiStatement (';' :: (w ++ c :: b)) = true := by
  have hmem : c ∈ w ++ c :: b := by simp
  have hany : (w ++ c :: b).any (fun d => !pyIsSpace d) = true := by
    rw [List.any_eq_true]
    exact ⟨c, hmem, by simp [hc]⟩
  simp [multiStatement, hany]

theorem multiStatement_allws (l : List Char) (h : ∀ x ∈ l, pyIsSpace x = true) :
    multiStatement l = false := by
  induction l with
  | nil => rfl
  | cons c t ih =>
    have hc : pyIsSpace c = true := h c (by simp)
    have hcs : ¬ c = ';' := by
      intro he
      rw [he] at hc
      exact absurd hc (by decide)
    simp [multiStatement, hcs, ih (fun x hx => h x (by simp [hx]))]

theorem multiStatement_trailing (a w : List Char) (ha : ∀ x ∈ a, ¬ x = ';')
    (hw : ∀ x ∈ w, pyIsSpace x = true) :
    multiStatement (a ++ ';' :: w) = false := by
  induction a with
  | nil =>
    simp [multiStatement, allws_any_nonws w hw, multiStatement_allws w hw]
  | cons c t ih =>
    have hc : ¬ c = ';' := ha c (by simp)
    simp [multiStatement, hc, ih (fun x hx => ha x (by simp [hx]))]

/-- C4: any `';'` followed (after optional whitespace) by a non-whitespace
character makes `execute` fail with the structural-violation message for
every permission configuration, while a query whose `';'` is trailing
(followed only by whitespace) is never rejected with that message. -/
theorem C4_multiple_statements :
    ∀ (Row π : Type) (v : Validator)
      (db : List Char → Option π → Except (List Char) (DbValue Row))
      (p : Option π) (dd : Option (List Char)) (a w b : List Char) (c : Char),
    ((∀ x ∈ w, pyIsSpace x = true) → pyIsSpace c = false →
      (QueryExecutor.execute v db (a ++ ';' :: (w ++ c :: b)) p dd).success = false ∧
      (QueryExecutor.execute v db (a ++ ';' :: (w ++ c :: b)) p dd).error =
        some (String.toList "Multiple statements detected in query")) ∧
    ((∀ x ∈ a, ¬ x = ';') → (∀ x ∈ w, pyIsSpace x = true) →
      validate_query v (a ++ ';' :: w) true ≠
        .error (String.toList "Multiple statements detected in query")) := by
  intro Row π v db p dd a w b c
  constructor
  · intro hw hc
    have hms : multiStatement (a ++ ';' :: (w ++ c :: b)) = true :=
      multiStatement_append_true a _ (multiStatement_semi w b c hc)
    have hv : validate_query v (a ++ ';' :: (w ++ c :: b)) true =
        .error (String.toList "Multiple statements detected in query") := by
      simp [validate_query, hms]
    rw [execute_validate_error v db _ p dd _ hv]
    exact ⟨rfl, rfl⟩
  · intro ha hw
    have hms : multiStatement (a ++ ';' :: w) = false :=
      multiStatement_trailing a w ha hw
    unfold validate_query
    rw [hms]
    split_ifs with h1 h2 h3 h4 h5 h6 <;> simp_all

/-- C4 witness: `SELECT 1; DROP TABLE x` is rejected structurally;
`SELECT 1 ;` (trailing semicolon) is not rejected on structural grounds. -/
theorem C4_multiple_statements_witness :
    ((∀ x ∈ [' '], pyIsSpace x = true) ∧ pyIsSpace 'D' = false ∧
      (∀ x ∈ String.toList "SELECT 1", ¬ x = ';') ∧
      (QueryExecutor.execute ⟨true, true, true⟩ dbRows
          (String.toList "SELECT 1" ++ ';' :: ([' '] ++ 'D' :: String.toList "ROP TABLE x"))
          none none).success = false) ∧
    validate_query ⟨true, true, true⟩ (String.toList "SELECT 1" ++ ';' :: [' ']) true ≠
      .error (String.toList "Multiple statements detected in query") := by
  constructor
  · exact ⟨by decide, by decide, by decide,
      ((C4_multiple_statements Unit Unit ⟨true, true, true⟩ dbRows none none
          (String.toList "SELECT 1") [' '] (String.toList "ROP TABLE x") 'D').1
        (by decide) (by decide)).1⟩
  · exact (C4_multiple_statements Unit Unit ⟨true, true, true⟩ dbRows none none
        (String.toList "SELECT 1") [' '] (String.toList "ROP TABLE x") 'D').2
      (by decide) (by decide)

/-! ## C6: write-category permission flags -/

/-- C6: for a single-statement write-category query, validation denies
exactly when the matching permission flag is false (with the
category-specific message), and changing one flag changes the validation
outcome of no query of another category. -/
theorem C6_write_permission_flags :
    ∀ (v : Validator) (q : List Char),
    (multiStatement q = false →
      ((get_query_type q = .INSERT →
         validate_query v q true =
           (if v.allow_insert then .ok ()
            else .error (String.toList "INSERT operations are not allowed"))) ∧
       (get_query_type q = .UPDATE →
         validate_query v q true =
           (if v.allow_update then .ok ()
            else .error (String.toList "UPDATE operations are not allowed"))) ∧
       (get_query_type q = .DELETE →
         validate_query v q true =
           (if v.allow_delete then .ok ()
            else .error (String.toList "DELETE operations are not allowed"))))) ∧
    (∀ (v2 : Validator) (q2 : List Char),
      (get_query_type q2 ≠ .INSERT → v.allow_update = v2.allow_update →
        v.allow_delete = v2.allow_delete →
        validate_query v q2 true = validate_query v2 q2 true) ∧
      (get_query_type q2 ≠ .UPDATE → v.allow_insert = v2.allow_insert →
        v.allow_delete = v2.allow_delete →
        validate_query v q2 true = validate_query v2 q2 true) ∧
      (get_query_type q2 ≠ .DELETE → v.allow_insert = v2.allow_insert →
        v.allow_update = v2.allow_update →
        validate_query v q2 true = validate_query v2 q2 true)) := by
  intro v q
  constructor
  · intro hms
    refine ⟨?_, ?_, ?_⟩ <;> intro hqt <;>
      cases hI : v.allow_insert <;> cases hU : v.allow_update <;>
        cases hD : v.allow_delete <;> simp [validate_query, hms, hqt, hI, hU, hD]
  · intro v2 q2
    refine ⟨?_, ?_, ?_⟩ <;> intro hne h1 h2 <;> cases hms : multiStatement q2
    all_goals try (simp [validate_query, hms]; done)
    all_goals cases hqt : get_query_type q2 <;> simp_all [validate_query]

/-- C6 witness: enabling `allow_insert` admits an INSERT and changes nothing
for a DELETE-category query. -/
theorem C6_write_permission_flags_witness :
    validate_query ⟨true, false, false⟩ (String.toList "INSERT INTO t VALUES (1)") true =
      .ok () ∧
    validate_query ⟨false, false, false⟩ (String.toList "INSERT INTO t VALUES (1)") true =
      .error (String.toList "INSERT operations are not allowed") ∧
    validate_query ⟨true, false, false⟩ (String.toList "DELETE FROM t") true =
      validate_query ⟨false, false, false⟩ (String.toList "DELETE FROM t") true := by
  refine ⟨?_, ?_, ?_⟩
  · have h := ((C6_write_permission_flags ⟨true, false, false⟩
        (String.toList "INSERT INTO t VALUES (1)")).1 (by decide)).1 (by decide)
    simpa using h
  · have h := ((C6_write_permission_flags ⟨false, false, false⟩
        (String.toList "INSERT INTO t VALUES (1)")).1 (by decide)).1 (by decide)
    simpa using h
  · exact ((C6_write_permission_flags ⟨true, false, false⟩ []).2
      ⟨false, false, false⟩ (String.toList "DELETE FROM t")).1 (by decide) rfl rfl

/-! ## C8: per-identity sliding-window rate limiting (spec-modelled) -/

theorem updF_updF {α : Type} (f : String → α) (k : String) (a b : α) :
    updF (updF f k a) k b = updF f k b := by
  funext j
  by_cases h : j = k <;> simp [updF, h]

theorem filter_replicate_self {α : Type} (p : α → Bool) (a : α) (h : p a = true) :
    ∀ n, (List.replicate n a).filter p = List.replicate n a := by
  intro n
  induction n with
  | zero => rfl
  | succ n ih => simp [List.replicate_succ, List.filter_cons, h, ih]

theorem inWindow_now (horizon t : Nat) (h : 0 < horizon) : inWindow horizon t t = true := by
  simp [inWindow]
  omega

theorem stateAfter_zero (a : String) (t : Nat) : stateAfter a t 0 = LimiterState.empty := by
  unfold stateAfter LimiterState.empty
  congr 1 <;> funext j <;> simp [updF]

theorem checkAndRecord_allow (cfg : LimiterConfig) (a : String) (t k : Nat)
    (hk1 : k < cfg.max_per_minute) (hk2 : k < cfg.max_per_hour) :
    checkAndRecord cfg (stateAfter a t k) a t = ((true, none), stateAfter a t (k + 1)) := by
  have h1 : ¬ cfg.max_per_minute ≤ k := by omega
  have h2 : ¬ cfg.max_per_hour ≤ k := by omega
  unfold checkAndRecord stateAfter windowStep
  simp [updF, filter_replicate_self _ _ (inWindow_now 60 t (by omega)),
    filter_replicate_self _ _ (inWindow_now 3600 t (by omega)), h1, h2,
    List.replicate_succ, updF_updF]

theorem checkAndRecord_deny (cfg : LimiterConfig) (a : String) (t k : Nat)
    (hk : cfg.max_per_minute ≤ k) :
    (checkAndRecord cfg (stateAfter a t k) a t).1 = (false, some cfg.cooldown_seconds) := by
  unfold checkAndRecord stateAfter windowStep
  simp [updF, filter_replicate_self _ _ (inWindow_now 60 t (by omega)), hk]

theorem checkAndRecord_fresh (cfg : LimiterConfig) (s : LimiterState) (b : String) (t : Nat)
    (hm : s.minute b = []) (hh : s.hour b = []) (hc : s.cooldown b = none)
    (h1 : 0 < cfg.max_per_minute) (h2 : 0 < cfg.max_per_hour) :
    (checkAndRecord cfg s b t).1 = (true, none) := by
  have h1n : ¬ cfg.max_per_minute ≤ 0 := by omega
  have h2n : ¬ cfg.max_per_hour ≤ 0 := by omega
  unfold checkAndRecord windowStep
  rw [hc]
  simp [hm, hh, h1n, h2n]

theorem runChecks_state (cfg : LimiterConfig) (a : String) (t : Nat) :
    ∀ k, k ≤ cfg.max_per_minute → k ≤ cfg.max_per_hour →
    runChecks cfg a t k LimiterState.empty = stateAfter a t k := by
  intro k
  induction k with
  | zero => intro _ _; rw [stateAfter_zero]; rfl
  | succ k ih =>
    intro hk1 hk2
    have hstep := checkAndRecord_allow cfg a t k (by omega) (by omega)
    unfold runChecks
    rw [ih (by omega) (by omega), hstep]

/-- C8 (spec-modelled): with max-per-minute N, the first N checks of one
identity inside a 60-second window are allowed, its (N+1)-th check is
denied with a non-null retry-after, and a different identity's check in the
same window is still allowed (per-identity state is independent). -/
theorem C8_rate_limiting :
    ∀ (cfg : LimiterConfig) (a b : String) (t N : Nat),
    cfg.max_per_minute = N → 0 < N → N ≤ cfg.max_per_hour → b ≠ a →
    ((∀ k, k < N →
        (checkAndRecord cfg (runChecks cfg a t k LimiterState.empty) a t).1 =
          (true, none)) ∧
     ((checkAndRecord cfg (runChecks cfg a t N LimiterState.empty) a t).1.1 = false ∧
      (checkAndRecord cfg (runChecks cfg a t N LimiterState.empty) a t).1.2 ≠ none) ∧
     (checkAndRecord cfg (runChecks cfg a t N LimiterState.empty) b t).1 =
       (true, none)) := by
  intro cfg a b t N hN hpos hhour hba
  have hrun : ∀ k, k ≤ N →
      runChecks cfg a t k LimiterState.empty = stateAfter a t k := by
    intro k hk
    exact runChecks_state cfg a t k (by omega) (by omega)
  refine ⟨?_, ⟨?_, ?_⟩, ?_⟩
  · intro k hk
    rw [hrun k (by omega), (checkAndRecord_allow cfg a t k (by omega) (by omega))]
  · rw [hrun N (by omega), checkAndRecord_deny cfg a t N (by omega)]
  · rw [hrun N (by omega), checkAndRecord_deny cfg a t N (by omega)]
    simp
  · rw [hrun N (by omega)]
    exact checkAndRecord_fresh cfg (stateAfter a t N) b t
      (by simp [stateAfter, updF, hba]) (by simp [stateAfter, updF, hba])
      rfl (by omega) (by omega)

/-- C8 witness at a concrete configuration (N = 2). -/
theorem C8_rate_limiting_witness :
    (checkAndRecord ⟨2, 10, 60⟩ (runChecks ⟨2, 10, 60⟩ "a" 0 2 LimiterState.empty)
        "a" 0).1.1 = false ∧
    (checkAndRecord ⟨2, 10, 60⟩ (runChecks ⟨2, 10, 60⟩ "a" 0 2 LimiterState.empty)
        "a" 0).1.2 ≠ none ∧
    (checkAndRecord ⟨2, 10, 60⟩ (runChecks ⟨2, 10, 60⟩ "a" 0 2 LimiterState.empty)
        "b" 0).1 = (true, none) := by
  have h := C8_rate_limiting ⟨2, 10, 60⟩ "a" "b" 0 2 rfl (by decide) (by decide)
    (by decide)
  exact ⟨h.2.1.1, h.2.1.2, h.2.2⟩

/-! ## C7: the classifier against the claimed pattern description -/

theorem pyIsSpace_toLower (c : Char) (h : pyIsSpace c = true) : c.toLower = c := by
  simp only [pyIsSpace, Bool.or_eq_true, decide_eq_true_eq, or_assoc] at h
  rcases h with h | h | h | h | h | h | h | h | h | h | h | h <;> subst h <;> decide

theorem stripKw_iff (kw : List Char) :
    ∀ l r, stripKw kw l = some r ↔ ∃ k, l = k ++ r ∧ lowerEq k kw := by
  induction kw with
  | nil =>
    intro l r
    constructor
    · intro h
      have hlr : l = r := by
        have h2 : some l = some r := h
        injection h2
      exact ⟨[], by simp [hlr], by simp [lowerEq]⟩
    · rintro ⟨k, hl, hk⟩
      have hk0 : k = [] := by simpa [lowerEq] using hk
      subst hk0
      simp at hl
      show some l = some r
      rw [hl]
  | cons k0 ks ih =>
    intro l r
    cases l with
    | nil =>
      constructor
      · intro h
        simp [stripKw] at h
      · rintro ⟨k, hl, hk⟩
        cases k with
        | nil => simp [lowerEq] at hk
        | cons a b => simp at hl
    | cons c cs =>
      constructor
      · intro h
        unfold stripKw at h
        split at h
        case isTrue heq =>
          rcases (ih cs r).mp h with ⟨k, hcs, hk⟩
          have hcl : c.toLower = k0.toLower := by
            have hh : k0.toLower = c.toLower := by simpa [charEqCI] using heq
            exact hh.symm
          refine ⟨c :: k, by simp [hcs], ?_⟩
          simp only [lowerEq, List.map_cons, List.cons.injEq]
          exact ⟨hcl, by simpa [lowerEq] using hk⟩
        case isFalse => exact absurd h (by simp)
      · rintro ⟨k, hl, hk⟩
        cases k with
        | nil => simp [lowerEq] at hk
        | cons a b =>
          have hca : c = a := by
            have hh := congrArg (fun x => x.head?) hl
            simpa using hh
          subst hca
          have hhead : c.toLower = k0.toLower := by
            have hh := congrArg (fun x => x.head?) hk
            simpa [lowerEq] using hh
          have htail : lowerEq b ks := by
            have hh := congrArg (fun x => x.tail) hk
            simpa [lowerEq] using hh
          have hcs : cs = b ++ r := by
            have hh := congrArg (fun x => x.tail) hl
            simpa using hh
          unfold stripKw
          rw [if_pos (by simpa [charEqCI] using hhead.symm)]
          exact (ih cs r).mpr ⟨b, hcs, htail⟩

theorem dropWhile_append_allP (p : Char → Bool) (w l : List Char)
    (h : ∀ x ∈ w, p x = true) : (w ++ l).dropWhile p = l.dropWhile p := by
  induction w with
  | nil => rfl
  | cons c t ih =>
    simp only [List.cons_append, List.dropWhile_cons, h c (by simp)]
    exact ih (fun x hx => h x (by simp [hx]))

theorem takeWhile_append_allP (p : Char → Bool) (w l : List Char)
    (h : ∀ x ∈ w, p x = true) : (w ++ l).takeWhile p = w ++ l.takeWhile p := by
  induction w with
  | nil => rfl
  | cons c t ih =>
    simp only [List.cons_append, List.takeWhile_cons, h c (by simp)]
    simp [ih (fun x hx => h x (by simp [hx]))]

theorem head_not_ws (k0 c : Char) (h0 : pyIsSpace k0.toLower = false)
    (hc : c.toLower = k0.toLower) : pyIsSpace c = false := by
  by_contra h
  have hws : pyIsSpace c = true := by
    cases hcc : pyIsSpace c
    · exact absurd hcc h
    · rfl
  rw [pyIsSpace_toLower c hws] at hc
  rw [← hc, hws] at h0
  exact absurd h0 (by simp)

theorem matchKwWs_iff (kw l : List Char) (k0 : Char) (ks : List Char)
    (hkw : kw = k0 :: ks) (h0 : pyIsSpace k0.toLower = false) :
    matchKwWs kw l = true ↔ kwSpec kw l := by
  constructor
  · intro h
    unfold matchKwWs at h
    split at h
    case h_2 => exact absurd h (by simp)
    case h_1 rest heq =>
      rcases (stripKw_iff kw _ rest).mp heq with ⟨k, hd, hk⟩
      cases rest with
      | nil => exact absurd h (by simp [headIsWs])
      | cons c r =>
        refine ⟨l.takeWhile pyIsSpace, k, c, r, ?_, ?_, hk, ?_⟩
        · rw [List.append_assoc, ← hd, List.takeWhile_append_dropWhile]
        · intro x hx
          exact List.mem_takeWhile_imp hx
        · simpa [headIsWs] using h
  · rintro ⟨w, k, c, r, hl, hw, hk, hc⟩
    cases k with
    | nil => rw [hkw] at hk; simp [lowerEq] at hk
    | cons a b =>
      have hha : a.toLower = k0.toLower := by
        rw [hkw] at hk
        have hh := congrArg (fun x => x.head?) hk
        simpa [lowerEq] using hh
      have hans : pyIsSpace a = false := head_not_ws k0 a h0 hha
      have hdrop : l.dropWhile pyIsSpace = (a :: b) ++ (c :: r) := by
        rw [hl, List.append_assoc, dropWhile_append_allP pyIsSpace w _ hw]
        simp [List.dropWhile_cons, hans]
      unfold matchKwWs
      rw [hdrop, (stripKw_iff kw _ (c :: r)).mpr ⟨a :: b, rfl, hk⟩]
      simpa [headIsWs] using hc

theorem rdrop_rtake (p : Char → Bool) (l : List Char) :
    l.rdropWhile p ++ l.rtakeWhile p = l := by
  rw [List.rdropWhile, List.rtakeWhile, ← List.reverse_append,
    List.takeWhile_append_dropWhile, List.reverse_reverse]

theorem rtakeWhile_append_allP (p : Char → Bool) (a b : List Char)
    (h : ∀ x ∈ b, p x = true) : (a ++ b).rtakeWhile p = a.rtakeWhile p ++ b := by
  rw [List.rtakeWhile, List.rtakeWhile, List.reverse_append,
    takeWhile_append_allP p b.reverse a.reverse (fun x hx => h x (by simpa using hx)),
    List.reverse_append, List.reverse_reverse]

theorem rdropWhile_append_allP (p : Char → Bool) (a b : List Char)
    (h : ∀ x ∈ b, p x = true) : (a ++ b).rdropWhile p = a.rdropWhile p := by
  rw [List.rdropWhile, List.rdropWhile, List.reverse_append,
    dropWhile_append_allP p b.reverse a.reverse (fun x hx => h x (by simpa using hx))]

theorem regionOk_iff (R : List Char) :
    regionOk R = true ↔
      ∃ w1 X w2, R = w1 ++ X ++ w2 ∧ w1 ≠ [] ∧ allWsP w1 ∧
        (∀ x ∈ X, ¬ x = '\n') ∧ w2 ≠ [] ∧ allWsP w2 := by
  constructor
  · intro h
    unfold regionOk at h
    split at h
    case isTrue hall =>
      have hlen : 2 ≤ R.length := by simpa using h
      have hmem : ∀ x ∈ R, pyIsSpace x = true := by
        intro x hx
        exact List.all_eq_true.mp hall x hx
      cases R with
      | nil => simp at hlen
      | cons c t =>
        cases t with
        | nil => simp at hlen
        | cons d u =>
          refine ⟨[c], [], d :: u, by simp, by simp, ?_, by simp, by simp, ?_⟩
          · intro x hx
            have : x = c := by simpa using hx
            exact this ▸ hmem c (by simp)
          · intro x hx
            exact hmem x (by simp [hx])
    case isFalse hall =>
      rw [Bool.and_eq_true, Bool.and_eq_true] at h
      obtain ⟨⟨h1, h2⟩, h3⟩ := h
      refine ⟨R.takeWhile pyIsSpace, (R.dropWhile pyIsSpace).rdropWhile pyIsSpace,
        (R.dropWhile pyIsSpace).rtakeWhile pyIsSpace, ?_, ?_, ?_, ?_, ?_, ?_⟩
      · rw [List.append_assoc, rdrop_rtake, List.takeWhile_append_dropWhile]
      · simpa using h1
      · intro x hx
        exact List.mem_takeWhile_imp hx
      · intro x hx
        have hh : ((R.dropWhile pyIsSpace).rdropWhile pyIsSpace).any
            (fun c => c = '\n') = false := by
          simpa [noNl] using h3
        have := List.any_eq_false.mp hh x hx
        simpa using this
      · simpa using h2
      · intro x hx
        exact List.mem_rtakeWhile_imp hx
  · rintro ⟨w1, X, w2, hR, hw1, hw1p, hX, hw2, hw2p⟩
    unfold regionOk
    split
    case isTrue hall =>
      simp only [decide_eq_true_eq]
      rw [hR]
      simp only [List.length_append]
      have l1 : 1 ≤ w1.length := List.length_pos.mpr hw1
      have l2 : 1 ≤ w2.length := List.length_pos.mpr hw2
      omega
    case isFalse hall =>
      obtain ⟨c1, w1t, rfl⟩ : ∃ c t, w1 = c :: t := by
        cases w1 with
        | nil => exact absurd rfl hw1
        | cons a b => exact ⟨a, b, rfl⟩
      rw [Bool.and_eq_true, Bool.and_eq_true]
      have hbody : R.dropWhile pyIsSpace = (X ++ w2).dropWhile pyIsSpace := by
        rw [hR, List.append_assoc, dropWhile_append_allP _ _ _ hw1p]
      cases hXb : X.dropWhile pyIsSpace with
      | nil =>
        exfalso
        have hXall : ∀ x ∈ X, pyIsSpace x = true := List.dropWhile_eq_nil_iff.mp hXb
        apply hall
        rw [List.all_eq_true]
        intro x hx
        rw [hR] at hx
        simp only [List.append_assoc, List.mem_append] at hx
        rcases hx with hx | hx | hx
        · exact hw1p x hx
        · exact hXall x hx
        · exact hw2p x hx
      | cons xb xt =>
        have hxb : pyIsSpace xb = false := by
          have hne : X.dropWhile pyIsSpace ≠ [] := by rw [hXb]; simp
          have hnot := List.head_dropWhile_not pyIsSpace X hne
          have hhead : (X.dropWhile pyIsSpace).head hne = xb := by
            have h1 : (X.dropWhile pyIsSpace).head? = some xb := by rw [hXb]; rfl
            have h2 := List.head?_eq_head (l := X.dropWhile pyIsSpace) hne
            rw [h1] at h2
            exact (Option.some.inj h2).symm
          rw [hhead] at hnot
          exact hnot
        have hXsplit : X.takeWhile pyIsSpace ++ (xb :: xt) = X := by
          rw [← hXb, List.takeWhile_append_dropWhile]
        have hbody2 : R.dropWhile pyIsSpace = (xb :: xt) ++ w2 := by
          rw [hbody, ← hXsplit, List.append_assoc,
            dropWhile_append_allP _ _ _ (fun x hx => List.mem_takeWhile_imp hx)]
          simp [List.dropWhile_cons, hxb]
        refine ⟨⟨?_, ?_⟩, ?_⟩
        · rw [hR]
          have hc1 : pyIsSpace c1 = true := hw1p c1 (by simp)
          simp [List.takeWhile_cons, hc1]
        · rw [hbody2, rtakeWhile_append_allP _ _ _ hw2p]
          simp [hw2]
        · rw [hbody2, rdropWhile_append_allP _ _ _ hw2p, noNl]
          simp only [Bool.not_eq_true', List.any_eq_false]
          intro x hx
          have hxX : x ∈ X := by
            rw [← hXsplit]
            have hsub : (xb :: xt).rdropWhile pyIsSpace <+: (xb :: xt) :=
              List.rdropWhile_prefix _ _
            exact List.mem_append_right _ (hsub.subset hx)
          simpa using hX x hxX

theorem selHeadWs_iff (rest : List Char) :
    selHeadWs rest = true ↔
      ∃ ks c r, rest = ks ++ c :: r ∧ lowerEq ks SELkw ∧ pyIsSpace c = true := by
  constructor
  · intro h
    unfold selHeadWs at h
    split at h
    case h_2 => exact absurd h (by simp)
    case h_1 rr heq =>
      rcases (stripKw_iff SELkw _ rr).mp heq with ⟨k, hd, hk⟩
      cases rr with
      | nil => exact absurd h (by simp [headIsWs])
      | cons c r => exact ⟨k, c, r, hd, hk, by simpa [headIsWs] using h⟩
  · rintro ⟨ks, c, r, hrest, hks, hc⟩
    unfold selHeadWs
    rw [hrest, (stripKw_iff SELkw _ (c :: r)).mpr ⟨ks, rfl, hks⟩]
    simpa [headIsWs] using hc

theorem matchWithSelect_iff (l : List Char) :
    matchWithSelect l = true ↔ withSelSpec l := by
  constructor
  · intro h
    unfold matchWithSelect at h
    split at h
    case h_1 => exact absurd h (by simp)
    case h_2 T heq =>
      rw [List.any_eq_true] at h
      obtain ⟨i, _, hcond⟩ := h
      rw [Bool.and_eq_true] at hcond
      obtain ⟨hreg, hsel⟩ := hcond
      rcases (regionOk_iff _).mp hreg with ⟨w1, X, w2, hTi, hw1, hw1p, hX, hw2, hw2p⟩
      rcases (selHeadWs_iff _).mp hsel with ⟨ks, c, r, hTd, hks, hc⟩
      rcases (stripKw_iff WITHkw _ T).mp heq with ⟨kw, hdw, hkw⟩
      refine ⟨l.takeWhile pyIsSpace, kw, w1, X, w2, ks, c, r, ?_,
        fun x hx => List.mem_takeWhile_imp hx, hkw, hw1, hw1p, hX, hw2, hw2p, hks, hc⟩
      have hT : T = (w1 ++ X ++ w2) ++ (ks ++ c :: r) := by
        calc T = T.take i ++ T.drop i := (List.take_append_drop i T).symm
        _ = (w1 ++ X ++ w2) ++ (ks ++ c :: r) := by rw [hTi, hTd]
      calc l = l.takeWhile pyIsSpace ++ l.dropWhile pyIsSpace :=
            (List.takeWhile_append_dropWhile _ _).symm
      _ = l.takeWhile pyIsSpace ++ (kw ++ T) := by rw [hdw]
      _ = l.takeWhile pyIsSpace ++ (kw ++ ((w1 ++ X ++ w2) ++ (ks ++ c :: r))) := by
            rw [hT]
      _ = l.takeWhile pyIsSpace ++ kw ++ w1 ++ X ++ w2 ++ ks ++ c :: r := by
            simp [List.append_assoc]
  · rintro ⟨w0, kw, w1, X, w2, ks, c, r, hl, hw0, hkw, hw1, hw1p, hX, hw2, hw2p, hks, hc⟩
    obtain ⟨a, b, rfl⟩ : ∃ a b, kw = a :: b := by
      cases kw with
      | nil => simp [lowerEq, WITHkw] at hkw
      | cons a b => exact ⟨a, b, rfl⟩
    have hha : a.toLower = 'W'.toLower := by
      have hh := congrArg (fun x => x.head?) hkw
      simpa [lowerEq, WITHkw] using hh
    have hans : pyIsSpace a = false := head_not_ws 'W' a (by decide) hha
    have hl2 : l = w0 ++ ((a :: b) ++ (w1 ++ (X ++ (w2 ++ (ks ++ c :: r))))) := by
      rw [hl]
      simp [List.append_assoc]
    have hdrop : l.dropWhile pyIsSpace =
        (a :: b) ++ (w1 ++ (X ++ (w2 ++ (ks ++ c :: r)))) := by
      rw [hl2, dropWhile_append_allP _ _ _ hw0]
      simp [List.dropWhile_cons, hans]
    unfold matchWithSelect
    rw [hdrop, (stripKw_iff WITHkw _ _).mpr ⟨a :: b, rfl, hkw⟩]
    rw [List.any_eq_true]
    have hassoc : w1 ++ (X ++ (w2 ++ (ks ++ c :: r))) =
        (w1 ++ X ++ w2) ++ (ks ++ c :: r) := by
      simp [List.append_assoc]
    refine ⟨(w1 ++ X ++ w2).length, ?_, ?_⟩
    · rw [List.mem_range, hassoc]
      simp only [List.length_append]
      omega
    · rw [Bool.and_eq_true]
      constructor
      · rw [hassoc, List.take_left]
        exact (regionOk_iff _).mpr ⟨w1, X, w2, rfl, hw1, hw1p, hX, hw2, hw2p⟩
      · rw [hassoc, List.drop_left]
        exact (selHeadWs_iff _).mpr ⟨ks, c, r, rfl, hks, hc⟩

theorem matchSelectPat_iff (s : List Char) : matchSelectPat s = true ↔ selSpec s := by
  unfold matchSelectPat selSpec
  rw [Bool.or_eq_true, matchKwWs_iff SELkw s 'S' ['E', 'L', 'E', 'C', 'T'] rfl (by decide),
    matchWithSelect_iff]

theorem matchDdlPat_iff (s : List Char) : matchDdlPat s = true ↔ ddlSpec s := by
  unfold matchDdlPat ddlSpec
  rw [Bool.or_eq_true, Bool.or_eq_true, Bool.or_eq_true, Bool.or_eq_true,
    matchKwWs_iff CREkw s 'C' ['R', 'E', 'A', 'T', 'E'] rfl (by decide),
    matchKwWs_iff DROPkw s 'D' ['R', 'O', 'P'] rfl (by decide),
    matchKwWs_iff ALTkw s 'A' ['L', 'T', 'E', 'R'] rfl (by decide),
    matchKwWs_iff TRUNCkw s 'T' ['R', 'U', 'N', 'C', 'A', 'T', 'E'] rfl (by decide),
    matchKwWs_iff RENkw s 'R' ['E', 'N', 'A', 'M', 'E'] rfl (by decide)]
  tauto

/-- C7 counterexample: the claim's `WITH <name> AS (...)` reading of the
SELECT pattern diverges from the code in both directions.  A CTE whose
parenthesised body spans a newline is SELECT per the claim but OTHER per
the code (`.` in the regex does not cross newlines), and `WITH t x SELECT
1` (no `AS (...)`) is OTHER per the claim but SELECT per the code. -/
theorem C7_counterexample :
    (specClassify (String.toList "WITH t AS (SELECT 1\nFROM d) SELECT * FROM t") =
        .SELECT ∧
      get_query_type (String.toList "WITH t AS (SELECT 1\nFROM d) SELECT * FROM t") =
        .OTHER) ∧
    (specClassify (String.toList "WITH t x SELECT 1") = .OTHER ∧
      get_query_type (String.toList "WITH t x SELECT 1") = .SELECT) := by
  exact ⟨⟨by decide, by decide⟩, ⟨by decide, by decide⟩⟩

/-- C7 (amended): `get_query_type` trims the query and matches
case-insensitively, anchored at the start, in fixed priority order —
optional `WITH` + whitespace + newline-free text + whitespace before
SELECT (amended from `WITH <name> AS (...)`), or bare SELECT; then INSERT;
then UPDATE; then DELETE; then the five DDL keywords; each keyword
followed by whitespace — with OTHER as the fallback, so every query gets
exactly one category. -/
theorem C7_classifier_amended :
    ∀ q : List Char,
    (get_query_type q = .SELECT ↔ selSpec (pyStrip q)) ∧
    (get_query_type q = .INSERT ↔
      ¬ selSpec (pyStrip q) ∧ kwSpec INSkw (pyStrip q)) ∧
    (get_query_type q = .UPDATE ↔
      ¬ selSpec (pyStrip q) ∧ ¬ kwSpec INSkw (pyStrip q) ∧ kwSpec UPDkw (pyStrip q)) ∧
    (get_query_type q = .DELETE ↔
      ¬ selSpec (pyStrip q) ∧ ¬ kwSpec INSkw (pyStrip q) ∧ ¬ kwSpec UPDkw (pyStrip q) ∧
      kwSpec DELkw (pyStrip q)) ∧
    (get_query_type q = .DDL ↔
      ¬ selSpec (pyStrip q) ∧ ¬ kwSpec INSkw (pyStrip q) ∧ ¬ kwSpec UPDkw (pyStrip q) ∧
      ¬ kwSpec DELkw (pyStrip q) ∧ ddlSpec (pyStrip q)) ∧
    (get_query_type q = .OTHER ↔
      ¬ selSpec (pyStrip q) ∧ ¬ kwSpec INSkw (pyStrip q) ∧ ¬ kwSpec UPDkw (pyStrip q) ∧
      ¬ kwSpec DELkw (pyStrip q) ∧ ¬ ddlSpec (pyStrip q)) := by
  intro q
  have hsel := matchSelectPat_iff (pyStrip q)
  have hins := matchKwWs_iff INSkw (pyStrip q) 'I' ['N', 'S', 'E', 'R', 'T'] rfl (by decide)
  have hupd := matchKwWs_iff UPDkw (pyStrip q) 'U' ['P', 'D', 'A', 'T', 'E'] rfl (by decide)
  have hdel := matchKwWs_iff DELkw (pyStrip q) 'D' ['E', 'L', 'E', 'T', 'E'] rfl (by decide)
  have hddl := matchDdlPat_iff (pyStrip q)
  cases h1 : matchSelectPat (pyStrip q) <;> cases h2 : matchKwWs INSkw (pyStrip q) <;>
    cases h3 : matchKwWs UPDkw (pyStrip q) <;> cases h4 : matchKwWs DELkw (pyStrip q) <;>
      cases h5 : matchDdlPat (pyStrip q) <;>
        simp [get_query_type, h1, h2, h3, h4, h5, ← hsel, ← hins, ← hupd, ← hdel, ← hddl]
